import Mathlib

/-!
Verification development for the `file_rename` plugin of the ARB repository
(`src/plugins/file_rename.py`).  The Python functions under scrutiny are
shallowly embedded here:

* a small executable matcher for the (case-insensitive) regular expressions
  used by `SEASON_EPISODE_PATTERNS` and `QUALITY_PATTERNS`,
* `extract_season_episode` and `extract_quality`, translated line by line,
* `os.path.splitext` and the target-filename computation of `process_file`,
* an interleaving transition system for the concurrency-related behaviour of
  `auto_rename_files` / `process_file` (per-user semaphore, the
  `renaming_operations` dedup map, and the try/except/finally structure).
-/

/-! ### Small list toolkit (kept self-contained and structurally recursive) -/

def nthL {α : Type} : List α → Nat → Option α
  | [], _ => none
  | a :: _, 0 => some a
  | _ :: r, n + 1 => nthL r n

def setL {α : Type} : List α → Nat → α → List α
  | [], _, _ => []
  | _ :: r, 0, b => b :: r
  | a :: r, n + 1, b => a :: setL r n b

def countB {α : Type} (p : α → Bool) : List α → Nat
  | [] => 0
  | a :: r => (if p a then 1 else 0) + countB p r

def startsWithL : List Char → List Char → Bool
  | _, [] => true
  | [], _ :: _ => false
  | c :: r, p :: q => if c = p then startsWithL r q else false

/-- Python `str.replace(old, '', 1)`: drop the first occurrence of `pat`. -/
def removeFirstL : List Char → List Char → List Char
  | [], _ => []
  | c :: r, pat =>
      if startsWithL (c :: r) pat then (c :: r).drop pat.length
      else c :: removeFirstL r pat

def sliceL (s : List Char) (a b : Nat) : List Char := (s.drop a).take (b - a)

/-! ### Character classes (ASCII fragment used by the catalog) -/

/-- Case-insensitive character comparison (all patterns use `re.IGNORECASE`). -/
def ciEqc (a b : Char) : Bool := a.toLower == b.toLower

inductive CC where
  | digit
  | alpha
  | wordc
  | space
  | oneOf (cs : List Char)
  | anyOf (a b : CC)

def ccMatch : CC → Char → Bool
  | .digit, c => c.isDigit
  | .alpha, c => c.isAlpha
  | .wordc, c => c.isAlphanum || c == '_'
  | .space, c =>
      c == ' ' || c == '\t' || c == '\n' || c == '\r' || c == '\x0b' || c == '\x0c'
  | .oneOf cs, c => cs.any (fun d => ciEqc d c)
  | .anyOf a b, c => ccMatch a c || ccMatch b c

/-! ### Regular-expression syntax

Only the constructs appearing in the two pattern catalogs are modelled:
literals, character classes, greedy bounded repetition of a class,
concatenation, alternation, capturing groups, lookahead, a single-character
negative lookbehind, word boundary `\b`, and the anchors `^` / `$`. -/

inductive RE where
  | eps
  | lit (cs : List Char)
  | cls (c : CC)
  | rep (c : CC) (lo : Nat) (hi : Option Nat)
  | cat (a b : RE)
  | alt (a b : RE)
  | grp (g : Nat) (a : RE)
  | la (positive : Bool) (a : RE)
  | nlb (c : CC)
  | wb
  | bos
  | eos

/-- Nesting depth: a fuel bound for the matcher. -/
def reDepth : RE → Nat
  | .cat a b => max (reDepth a) (reDepth b) + 1
  | .alt a b => max (reDepth a) (reDepth b) + 1
  | .grp _ a => reDepth a + 1
  | .la _ a => reDepth a + 1
  | _ => 1

/-- Capture list: entries `(group, start, stop)` (offsets into the subject). -/
abbrev Caps := List (Nat × Nat × Nat)

def litAt (s : List Char) : Nat → List Char → Bool
  | _, [] => true
  | i, c :: r =>
      match nthL s i with
      | some ch => if ciEqc c ch then litAt s (i + 1) r else false
      | none => false

/-- Length of the maximal run of class `c` at the head of the list. -/
def runLenC (c : CC) : List Char → Nat
  | [] => 0
  | ch :: r => if ccMatch c ch then runLenC c r + 1 else 0

def isWordAt (s : List Char) (i : Nat) : Bool :=
  match nthL s i with
  | some c => ccMatch .wordc c
  | none => false

def catRes (f : Nat → Caps → List (Nat × Caps)) : List (Nat × Caps) → List (Nat × Caps)
  | [] => []
  | (e, c) :: r => f e c ++ catRes f r

/-- Backtracking matcher.  `mrun s fuel re i cp` returns the candidate end
positions (with captures) of a match of `re` at position `i` of `s`, in the
priority order a Python-style backtracking engine explores them: alternatives
left to right, repetitions greedily longest first.  `fuel ≥ reDepth re`
guarantees the fuel never runs out. -/
def mrun (s : List Char) : Nat → RE → Nat → Caps → List (Nat × Caps)
  | 0, _, _, _ => []
  | fuel + 1, re, i, cp =>
    match re with
    | .eps => [(i, cp)]
    | .lit cs => if litAt s i cs then [(i + cs.length, cp)] else []
    | .cls c =>
        match nthL s i with
        | some ch => if ccMatch c ch then [(i + 1, cp)] else []
        | none => []
    | .rep c lo hi =>
        let full := runLenC c (s.drop i)
        let m := match hi with
          | some h => min full h
          | none => full
        if lo ≤ m then (List.range (m + 1 - lo)).map (fun k => (i + (m - k), cp))
        else []
    | .cat a b => catRes (fun e cp' => mrun s fuel b e cp') (mrun s fuel a i cp)
    | .alt a b => mrun s fuel a i cp ++ mrun s fuel b i cp
    | .grp g a => (mrun s fuel a i cp).map (fun ec => (ec.1, (g, i, ec.1) :: ec.2))
    | .la pos a =>
        let sub := mrun s fuel a i cp
        if pos then (if sub.isEmpty then [] else [(i, cp)])
        else (if sub.isEmpty then [(i, cp)] else [])
    | .nlb c =>
        match i with
        | 0 => [(i, cp)]
        | j + 1 =>
          match nthL s j with
          | some ch => if ccMatch c ch then [] else [(i, cp)]
          | none => [(i, cp)]
    | .wb =>
        let left := match i with
          | 0 => false
          | j + 1 => isWordAt s j
        let right := isWordAt s i
        if left ≠ right then [(i, cp)] else []
    | .bos => if i = 0 then [(i, cp)] else []
    | .eos =>
        if i = s.length then [(i, cp)]
        else if i + 1 = s.length ∧ nthL s i = some '\n' then [(i, cp)] else []

def searchA (s : List Char) (r : RE) : Nat → Nat → Option (Nat × Nat × Caps)
  | 0, _ => none
  | fuel + 1, i =>
    match mrun s (reDepth r) r i [] with
    | (e, cp) :: _ => some (i, e, cp)
    | [] => searchA s r fuel (i + 1)

/-- `re.search`: leftmost match; at the leftmost viable start position the
backtracking engine's first alternative wins. -/
def search (s : List Char) (r : RE) : Option (Nat × Nat × Caps) :=
  searchA s r (s.length + 1) 0

def capLookup : Caps → Nat → Option (Nat × Nat)
  | [], _ => none
  | (g', a, b) :: r, g => if g' = g then some (a, b) else capLookup r g

/-- `match.lastindex`: highest index of a group that participated. -/
def lastIdx : Caps → Option Nat
  | [] => none
  | (g, _, _) :: r =>
    match lastIdx r with
    | none => some g
    | some m => some (max g m)

/-- `match.group(g)` as a string (our groups always capture when present). -/
def groupStr (s : List Char) (cp : Caps) (g : Nat) : Option String :=
  (capLookup cp g).map (fun ab => String.mk (sliceL s ab.1 ab.2))

/-! ### `SEASON_EPISODE_PATTERNS` (transcribed one regex at a time) -/

def rel (s : String) : RE := .lit s.data

def reg (n : Nat) (r : RE) : RE := .grp n r

def red (lo hi : Nat) : RE := .rep .digit lo (some hi)

def rcat : List RE → RE
  | [] => .eps
  | [r] => r
  | r :: rs => .cat r (rcat rs)

def raltL : List RE → RE
  | [] => .eps
  | [r] => r
  | r :: rs => .alt r (raltL rs)

def optC (c : CC) : RE := .rep c 0 (some 1)

def starC (c : CC) : RE := .rep c 0 none

def plusC (c : CC) : RE := .rep c 1 none

/-- `[\.\-_]` -/
def sepd : CC := .oneOf ['.', '-', '_']

/-- `[\s\-_.]` -/
def seps : CC := .anyOf .space (.oneOf ['-', '_', '.'])

/-- `[\s\-_.(\[]` -/
def sepsOpen : CC := .anyOf .space (.oneOf ['-', '_', '.', '(', '['])

/-- `[\s\-_.)\]]` -/
def sepsClose : CC := .anyOf .space (.oneOf ['-', '_', '.', ')', ']'])

/-- `[A-Za-z0-9\-]` -/
def alnumDash : CC := .anyOf (.anyOf .alpha .digit) (.oneOf ['-'])

/-- `[_\-. ]` -/
def sep4 : CC := .oneOf ['_', '-', '.', ' ']

/-- `(?!p|fps)` -/
def noPfps : RE := .la false (.alt (rel "p") (rel "fps"))

/-- `(?![\dp])` -/
def noDigitP : RE := .la false (.cls (.anyOf .digit (.oneOf ['p'])))

/-- One catalog entry: the compiled pattern plus the `(season, episode)` group
indices, exactly as in the `SEASON_EPISODE_PATTERNS` tuples. -/
abbrev SEPat := RE × (Option Nat × Option Nat)

def SEASON_EPISODE_PATTERNS : List SEPat := [
  -- \bS(\d{1,2})[\.\-_]?E(\d{1,3})\b , (1, 2)
  (rcat [.wb, rel "S", reg 1 (red 1 2), optC sepd, rel "E", reg 2 (red 1 3), .wb],
   (some 1, some 2)),
  -- \bS(\d{1,2})\s+E(\d{1,3})\b , (1, 2)
  (rcat [.wb, rel "S", reg 1 (red 1 2), plusC .space, rel "E", reg 2 (red 1 3), .wb],
   (some 1, some 2)),
  -- \[S(\d{1,2})[\.\-_]?E(\d{1,3})\] , (1, 2)
  (rcat [rel "[S", reg 1 (red 1 2), optC sepd, rel "E", reg 2 (red 1 3), rel "]"],
   (some 1, some 2)),
  -- \(S(\d{1,2})[\.\-_]?E(\d{1,3})\) , (1, 2)
  (rcat [rel "(S", reg 1 (red 1 2), optC sepd, rel "E", reg 2 (red 1 3), rel ")"],
   (some 1, some 2)),
  -- \b(\d{1,2})x(\d{1,3})\b , (1, 2)
  (rcat [.wb, reg 1 (red 1 2), rel "x", reg 2 (red 1 3), .wb], (some 1, some 2)),
  -- \[(\d{1,2})x(\d{1,3})\] , (1, 2)
  (rcat [rel "[", reg 1 (red 1 2), rel "x", reg 2 (red 1 3), rel "]"], (some 1, some 2)),
  -- \((\d{1,2})x(\d{1,3})\) , (1, 2)
  (rcat [rel "(", reg 1 (red 1 2), rel "x", reg 2 (red 1 3), rel ")"], (some 1, some 2)),
  -- \bSeason[\s\-_.]*(\d{1,2})[\s\-_.]*Episode[\s\-_.]*(\d{1,3})\b , (1, 2)
  (rcat [.wb, rel "Season", starC seps, reg 1 (red 1 2), starC seps,
         rel "Episode", starC seps, reg 2 (red 1 3), .wb], (some 1, some 2)),
  -- \bSeason[\s\-_.]*(\d{1,2})[\s\-_.]*Ep[\s\-_.]*(\d{1,3})\b , (1, 2)
  (rcat [.wb, rel "Season", starC seps, reg 1 (red 1 2), starC seps,
         rel "Ep", starC seps, reg 2 (red 1 3), .wb], (some 1, some 2)),
  -- \bSeason[\s\-_.]*(\d{1,2})[\s\-_.]*E[\s\-_.]*(\d{1,3})\b , (1, 2)
  (rcat [.wb, rel "Season", starC seps, reg 1 (red 1 2), starC seps,
         rel "E", starC seps, reg 2 (red 1 3), .wb], (some 1, some 2)),
  -- \[S(\d{1,2})\][\s\-_.]*\[E(\d{1,3})\] , (1, 2)
  (rcat [rel "[S", reg 1 (red 1 2), rel "]", starC seps,
         rel "[E", reg 2 (red 1 3), rel "]"], (some 1, some 2)),
  -- \(S(\d{1,2})\)[\s\-_.]*\(E(\d{1,3})\) , (1, 2)
  (rcat [rel "(S", reg 1 (red 1 2), rel ")", starC seps,
         rel "(E", reg 2 (red 1 3), rel ")"], (some 1, some 2)),
  -- \bS(\d{1,2})\.(\d{1,3})\b , (1, 2)
  (rcat [.wb, rel "S", reg 1 (red 1 2), rel ".", reg 2 (red 1 3), .wb], (some 1, some 2)),
  -- \bS(\d{1,2})\-(\d{1,3})\b , (1, 2)
  (rcat [.wb, rel "S", reg 1 (red 1 2), rel "-", reg 2 (red 1 3), .wb], (some 1, some 2)),
  -- \b(\d{1,2})\.(\d{1,3})\b(?!p|fps) , (1, 2)
  (rcat [.wb, reg 1 (red 1 2), rel ".", reg 2 (red 1 3), .wb, noPfps], (some 1, some 2)),
  -- \b(\d{1,2})\-(\d{1,3})\b(?!p|fps) , (1, 2)
  (rcat [.wb, reg 1 (red 1 2), rel "-", reg 2 (red 1 3), .wb, noPfps], (some 1, some 2)),
  -- \bS\s*(\d{1,2})\s+(\d{1,3})\b , (1, 2)
  (rcat [.wb, rel "S", starC .space, reg 1 (red 1 2), plusC .space,
         reg 2 (red 1 3), .wb], (some 1, some 2)),
  -- \bSeason\s*(\d{1,2})\s+(\d{1,3})\b , (1, 2)
  (rcat [.wb, rel "Season", starC .space, reg 1 (red 1 2), plusC .space,
         reg 2 (red 1 3), .wb], (some 1, some 2)),
  -- \bE(\d{1,3})[\s\-_.]*S(\d{1,2})\b , (2, 1)
  (rcat [.wb, rel "E", reg 1 (red 1 3), starC seps, rel "S", reg 2 (red 1 2), .wb],
   (some 2, some 1)),
  -- \bEp[\s\-_.]*(\d{1,3})[\s\-_.]*S(\d{1,2})\b , (2, 1)
  (rcat [.wb, rel "Ep", starC seps, reg 1 (red 1 3), starC seps,
         rel "S", reg 2 (red 1 2), .wb], (some 2, some 1)),
  -- (?:^|[\s\-_.(\[])E(\d{2,4})(?=[\s\-_.)\]]|$)(?!p|fps) , (None, 1)
  (rcat [.alt .bos (.cls sepsOpen), rel "E", reg 1 (red 2 4),
         .la true (.alt (.cls sepsClose) .eos), noPfps], (none, some 1)),
  -- (?:^|[\s\-_.(\[])Episode[\s\-_.]*(\d{1,3})(?=[\s\-_.)\]]|$) , (None, 1)
  (rcat [.alt .bos (.cls sepsOpen), rel "Episode", starC seps, reg 1 (red 1 3),
         .la true (.alt (.cls sepsClose) .eos)], (none, some 1)),
  -- (?:^|[\s\-_.(\[])Ep[\s\-_.]*(\d{1,3})(?=[\s\-_.)\]]|$) , (None, 1)
  (rcat [.alt .bos (.cls sepsOpen), rel "Ep", starC seps, reg 1 (red 1 3),
         .la true (.alt (.cls sepsClose) .eos)], (none, some 1)),
  -- \[[A-Za-z0-9\-]+\][\s\-_.]+E(\d{1,3})(?![\dp]) , (None, 1)
  (rcat [rel "[", plusC alnumDash, rel "]", plusC seps, rel "E", reg 1 (red 1 3),
         noDigitP], (none, some 1)),
  -- \[[A-Za-z0-9\-]+\][\s\-_.]+Episode[\s\-_.]*(\d{1,3})(?![\dp]) , (None, 1)
  (rcat [rel "[", plusC alnumDash, rel "]", plusC seps, rel "Episode", starC seps,
         reg 1 (red 1 3), noDigitP], (none, some 1)),
  -- (?:^|[\s\-_.])(\d{2,3})(?=[\s\-_.]|$)(?!p|fps|\d) , (None, 1)
  (rcat [.alt .bos (.cls seps), reg 1 (red 2 3), .la true (.alt (.cls seps) .eos),
         .la false (raltL [rel "p", rel "fps", .cls .digit])], (none, some 1)),
  -- \[(\d{2,3})\](?!p|fps) , (None, 1)
  (rcat [rel "[", reg 1 (red 2 3), rel "]", noPfps], (none, some 1)),
  -- \bS(\d{1,2})\b(?![\dE]) , (1, None)
  (rcat [.wb, rel "S", reg 1 (red 1 2), .wb,
         .la false (.cls (.anyOf .digit (.oneOf ['E'])))], (some 1, none)),
  -- \bSeason[\s\-_.]*(\d{1,2})\b , (1, None)
  (rcat [.wb, rel "Season", starC seps, reg 1 (red 1 2), .wb], (some 1, none)),
  -- ^S(\d{2})E(\d{2})$ , (1, 2)
  (rcat [.bos, rel "S", reg 1 (red 2 2), rel "E", reg 2 (red 2 2), .eos],
   (some 1, some 2)),
  -- ^(\d{1,2})x(\d{2})$ , (1, 2)
  (rcat [.bos, reg 1 (red 1 2), rel "x", reg 2 (red 2 2), .eos], (some 1, some 2)),
  -- ^Season\s*(\d{1,2})\s*Episode\s*(\d{1,2})$ , (1, 2)
  (rcat [.bos, rel "Season", starC .space, reg 1 (red 1 2), starC .space,
         rel "Episode", starC .space, reg 2 (red 1 2), .eos], (some 1, some 2)),
  -- ^S(\d{2})\s*-\s*E(\d{2})$ , (1, 2)
  (rcat [.bos, rel "S", reg 1 (red 2 2), starC .space, rel "-", starC .space,
         rel "E", reg 2 (red 2 2), .eos], (some 1, some 2)),
  -- ^\[S(\d{2})E(\d{2})\]$ , (1, 2)
  (rcat [.bos, rel "[S", reg 1 (red 2 2), rel "E", reg 2 (red 2 2), rel "]", .eos],
   (some 1, some 2)),
  -- ^\[(\d{1,2})x(\d{2})\]$ , (1, 2)
  (rcat [.bos, rel "[", reg 1 (red 1 2), rel "x", reg 2 (red 2 2), rel "]", .eos],
   (some 1, some 2)),
  -- ^\(S(\d{2})E(\d{2})\)$ , (1, 2)
  (rcat [.bos, rel "(S", reg 1 (red 2 2), rel "E", reg 2 (red 2 2), rel ")", .eos],
   (some 1, some 2)),
  -- ^S(\d{2})\.E(\d{2})$ , (1, 2)
  (rcat [.bos, rel "S", reg 1 (red 2 2), rel ".E", reg 2 (red 2 2), .eos],
   (some 1, some 2)),
  -- ^(\d{1,2})\.(\d{2})$ , (1, 2)
  (rcat [.bos, reg 1 (red 1 2), rel ".", reg 2 (red 2 2), .eos], (some 1, some 2)),
  -- ^E(\d{2,3})$ , (None, 1)
  (rcat [.bos, rel "E", reg 1 (red 2 3), .eos], (none, some 1)),
  -- ^Episode\s*(\d{1,3})$ , (None, 1)
  (rcat [.bos, rel "Episode", starC .space, reg 1 (red 1 3), .eos], (none, some 1)),
  -- ^\[E(\d{2,3})\]$ , (None, 1)
  (rcat [.bos, rel "[E", reg 1 (red 2 3), rel "]", .eos], (none, some 1))
]

/-! ### `extract_season_episode` -/

/-- Skip up to and including the first `')'`; `None` when no `')'` follows
before a newline or the end (`.` in `\(.*?\)` does not cross `'\n'`). -/
def dropThroughClose : List Char → Option (List Char)
  | [] => none
  | c :: r => if c = ')' then some r else if c = '\n' then none else dropThroughClose r

def stripGo : Nat → List Char → List Char
  | _, [] => []
  | 0, l => l
  | fuel + 1, c :: r =>
    if c = '(' then
      match dropThroughClose r with
      | some r' => ' ' :: stripGo fuel r'
      | none => '(' :: stripGo fuel r
    else c :: stripGo fuel r

/-- `re.sub(r'\(.*?\)', ' ', filename)`: each leftmost-shortest parenthesised
group is replaced by a single space. -/
def stripParens (l : List Char) : List Char := stripGo l.length l

/-- Python `str.zfill(2)`. -/
def zfill2 (s : String) : String :=
  if 2 ≤ s.length then s
  else
    match s.data with
    | [] => "00"
    | [c] => if c = '+' ∨ c = '-' then String.mk [c, '0'] else String.mk ['0', c]
    | _ => s

/-- Lines 142-150 of `file_rename.py`: compute the season string from the
declared season group (`None` = `continue` to the next pattern). -/
def pickSeason (fn : List Char) (cp : Caps) (gi : Option Nat) : Option String :=
  match gi with
  | none => some "01"
  | some g =>
    match lastIdx cp with
    | none => none
    | some li =>
      if li ≠ 0 ∧ g ≤ li then
        match groupStr fn cp g with
        | some cap => some (if cap ≠ "" then zfill2 cap else "01")
        | none => none
      else none

/-- Lines 152-157: compute the episode value (outer `None` = `continue`). -/
def pickEpisode (fn : List Char) (cp : Caps) (gi : Option Nat) :
    Option (Option String) :=
  match gi with
  | none => some none
  | some g =>
    match lastIdx cp with
    | none => none
    | some li =>
      if li ≠ 0 ∧ g ≤ li then
        match groupStr fn cp g with
        | some cap => some (if cap ≠ "" then some (zfill2 cap) else none)
        | none => none
      else none

/-- One iteration of the pattern loop (lines 137-162): `some (season, episode)`
when the pattern both matches and yields a truthy episode, else `none`. -/
def tryPat (fn : List Char) (p : SEPat) : Option (String × String) :=
  match search fn p.1 with
  | none => none
  | some (_, _, cp) =>
    match pickSeason fn cp p.2.1 with
    | none => none
    | some sn =>
      match pickEpisode fn cp p.2.2 with
      | none => none
      | some epOpt =>
        match epOpt with
        | some ep => if ep ≠ "" then some (sn, ep) else none
        | none => none

def seLoop (fn : List Char) : List SEPat → String × Option String
  | [] => ("01", none)
  | p :: ps =>
    match tryPat fn p with
    | some (sn, ep) => (sn, some ep)
    | none => seLoop fn ps

/-- `extract_season_episode(filename)` (lines 133-164). -/
def extract_season_episode (filename : String) : String × Option String :=
  seLoop (stripParens filename.data) SEASON_EPISODE_PATTERNS

/-! ### `QUALITY_PATTERNS` and `extract_quality` -/

/-- The second component of a `QUALITY_PATTERNS` entry: either a constant
string or `lambda m: m.group(1)`. -/
inductive QEx where
  | const (s : String)
  | grp1

abbrev QPat := RE × QEx

/-- `(?<!\d)(NNNp)(?!\d)` with a constant extractor. -/
def qres (t : String) : QPat :=
  (rcat [.nlb .digit, reg 1 (rel t), .la false (.cls .digit)], .const t)

def QUALITY_PATTERNS : List QPat := [
  qres "144p",
  qres "240p",
  qres "360p",
  qres "480p",
  (rcat [.wb, rel "SD", .wb], .const "480p"),
  qres "540p",
  qres "720p",
  (rcat [.wb, rel "HD", .wb], .const "720p"),
  qres "1080p",
  (rcat [.wb, rel "FHD", .wb], .const "1080p"),
  qres "1440p",
  qres "2160p",
  (rcat [.wb, rel "4k", .wb], .const "2160p"),
  -- [_\-. ](144p|240p|360p|480p|540p|720p|1080p|1440p|2160p)(?=[_\-. ])
  (rcat [.cls sep4,
         reg 1 (raltL [rel "144p", rel "240p", rel "360p", rel "480p", rel "540p",
                       rel "720p", rel "1080p", rel "1440p", rel "2160p"]),
         .la true (.cls sep4)], .grp1),
  (rcat [.wb, rel "HDRip", .wb], .const "HDRip")
]

/-- Python `str.lower()` (ASCII, as used by the quality labels). -/
def toLowerS (s : String) : String := String.mk (s.data.map Char.toLower)

/-- Python `str.endswith(pat)`. -/
def endsWithS (s pat : String) : Bool :=
  startsWithL s.data.reverse pat.data.reverse

/-- Loop state of `extract_quality`: the working copy of the filename and the
collected `quality_parts` (the `seen` set always holds the same elements). -/
structure QSt where
  fn : List Char
  parts : List String

/-- One iteration of the `extract_quality` loop (lines 183-190). -/
def qStep (st : QSt) (p : QPat) : QSt :=
  match search st.fn p.1 with
  | none => st
  | some (a, b, cp) =>
    let q := toLowerS (match p.2 with
      | .const s => s
      | .grp1 => (groupStr st.fn cp 1).getD "")
    if st.parts.contains q then st
    else { fn := removeFirstL st.fn (sliceL st.fn a b), parts := st.parts ++ [q] }

/-- `extract_quality(filename)` (lines 179-199). -/
def extract_quality (filename : String) : String :=
  let st := QUALITY_PATTERNS.foldl qStep ⟨filename.data, []⟩
  let resolution_qualities :=
    st.parts.filter (fun q => endsWithS q "p" || q == "4k" || q == "2160p")
  match resolution_qualities with
  | r :: _ => r
  | [] => if st.parts.contains "HDrip" then "HDRip" else "Unknown"

/-! ### `os.path.splitext` and the target filename of `process_file` -/

def rfindL (l : List Char) (c : Char) : Option Nat :=
  let rec go : List Char → Nat → Option Nat → Option Nat
    | [], _, acc => acc
    | x :: r, i, acc => go r (i + 1) (if x = c then some i else acc)
  go l 0 none

def allDotsRange (l : List Char) (a b : Nat) : Bool :=
  (List.range (b - a)).all (fun j => nthL l (a + j) = some '.')

/-- `posixpath.splitext(p)[1]`: the extension starts at the last `'.'` of the
basename unless the dots there are all leading. -/
def splitext_ext (p : String) : String :=
  let l := p.data
  match rfindL l '.' with
  | none => ""
  | some d =>
    let fi : Nat := match rfindL l '/' with
      | none => 0
      | some k => k + 1
    let sepOk : Bool := match rfindL l '/' with
      | none => true
      | some k => decide (k < d)
    if sepOk then (if allDotsRange l fi d then "" else String.mk (l.drop d)) else ""

inductive MediaType where
  | document
  | video
  | audio
deriving DecidableEq

/-- Python string truthiness fallback `s or d`. -/
def pyOr (s d : String) : String := if s = "" then d else s

/-- Python optional-string truthiness fallback (`episode or 'XX'`). -/
def pyOrOpt (s : Option String) (d : String) : String :=
  match s with
  | none => d
  | some v => if v = "" then d else v

/-- Lines 361-370: the replacement table applied to the user's template. -/
def applyReplacements (tmpl season : String) (episode : Option String)
    (quality : String) : String :=
  let pairs : List (String × String) :=
    [("{season}", pyOr season "XX"),
     ("{episode}", pyOrOpt episode "XX"),
     ("{quality}", pyOr quality "HD"),
     ("Season", pyOr season "XX"),
     ("Episode", pyOrOpt episode "XX"),
     ("QUALITY", pyOr quality "HD")]
  pairs.foldl (fun t kv => t.replace kv.1 kv.2) tmpl

/-- Line 372: `ext = os.path.splitext(file_name)[1] or ('.mp4' if media_type ==
'video' else '.mp3')`. -/
def pickExt (file_name : String) (media_type : MediaType) : String :=
  pyOr (splitext_ext file_name)
    (if media_type = MediaType.video then ".mp4" else ".mp3")

/-- Lines 356-373: the computed target filename `f"{format_template}{ext}"`. -/
def newFilename (format_template file_name : String) (media_type : MediaType) :
    String :=
  let se := extract_season_episode file_name
  let quality := extract_quality file_name
  applyReplacements format_template se.1 se.2 quality ++ pickExt file_name media_type

/-! ### Interleaving model of `auto_rename_files` / `process_file`

One `PTask` per arrival event.  The body of `process_file` is split into the
phases that matter for local-variable scope in the `finally` block:

* phase 0: fetch the format template, extract metadata, compute
  `download_path` / `metadata_path` (lines 360-379; the two paths are bound
  only once this phase completes);
* phase 1: download and `add_metadata` (lines 382-397);
* phase 2: fetch the caption (line 400; `thumb_path` still unbound);
* phase 3: bind and process `thumb_path`, upload, delete the status message
  (lines 402-428; every local is bound once this phase starts).

`pc = .body p` means phases `< p` completed.  Arrivals are modelled after the
format-template precondition and the `file_unique_id` extraction have
succeeded (their failure paths never touch the dedup map and release the
permit the same way).  An exception during phase `p`
reaches the `finally` block; if `p < 3` the block itself raises
`UnboundLocalError` evaluating `cleanup_files(download_path, metadata_path,
thumb_path)`, so neither cleanup nor the `renaming_operations.pop` on line 435
runs.  The `async with semaphore` wrapper releases the permit on every exit. -/

inductive PC where
  | start
  | atDedup
  | body (phase : Nat)
  | dupExit
  | done
deriving DecidableEq

structure PTask where
  owner : Nat
  fid : Nat
  pc : PC
  rejected : Bool
  finRaised : Bool
deriving DecidableEq

structure St where
  now : Nat
  renOps : List (Nat × Nat)
  sems : List (Nat × Nat)
  tasks : List PTask
deriving DecidableEq

def alookup : List (Nat × Nat) → Nat → Option Nat
  | [], _ => none
  | (k, v) :: r, k' => if k = k' then some v else alookup r k'

def aset : List (Nat × Nat) → Nat → Nat → List (Nat × Nat)
  | [], k, v => [(k, v)]
  | (k', v') :: r, k, v => if k' = k then (k, v) :: r else (k', v') :: aset r k v

def aremove : List (Nat × Nat) → Nat → List (Nat × Nat)
  | [], _ => []
  | (k', v') :: r, k => if k' = k then aremove r k else (k', v') :: aremove r k

inductive Act where
  | arrive (owner fid : Nat)
  | acquire (i : Nat)
  | dedup (i : Nat)
  | step (i : Nat)
  | raiseAt (i : Nat)
  | finish (i : Nat)
  | exitDup (i : Nat)
  | tick
deriving DecidableEq

/-- Increment the owner's available-permit count (`semaphore.release()`). -/
def releaseSem (s : List (Nat × Nat)) (o : Nat) : Option (List (Nat × Nat)) :=
  match alookup s o with
  | some a => some (aset s o (a + 1))
  | none => none

def applyAct (s : St) : Act → Option St
  | .arrive o f =>
      -- auto_rename_files: lazy `Semaphore(4)` per user, then create_task
      some { s with
        tasks := s.tasks ++ [⟨o, f, .start, false, false⟩],
        sems := match alookup s.sems o with
          | some _ => s.sems
          | none => aset s.sems o 4 }
  | .acquire i =>
      -- entry into `async with semaphore` (blocks while no permit is free)
      match nthL s.tasks i with
      | some t =>
        if t.pc = .start then
          match alookup s.sems t.owner with
          | some (a + 1) =>
            some { s with sems := aset s.sems t.owner a,
                          tasks := setL s.tasks i { t with pc := .atDedup } }
          | _ => none
        else none
      | none => none
  | .dedup i =>
      -- lines 341-344: TTL check against renaming_operations, then mark
      match nthL s.tasks i with
      | some t =>
        if t.pc = .atDedup then
          match alookup s.renOps t.fid with
          | some t0 =>
            if (s.now - t0) % 86400 < 10 then
              some { s with
                tasks := setL s.tasks i { t with pc := .dupExit, rejected := true } }
            else
              some { s with renOps := aset s.renOps t.fid s.now,
                            tasks := setL s.tasks i { t with pc := .body 0 } }
          | none =>
              some { s with renOps := aset s.renOps t.fid s.now,
                            tasks := setL s.tasks i { t with pc := .body 0 } }
        else none
      | none => none
  | .step i =>
      match nthL s.tasks i with
      | some t =>
        match t.pc with
        | .body p =>
          if p < 4 then
            some { s with tasks := setL s.tasks i { t with pc := .body (p + 1) } }
          else none
        | _ => none
      | none => none
  | .raiseAt i =>
      -- an exception during phase p; except-block replies, then finally
      match nthL s.tasks i with
      | some t =>
        match t.pc with
        | .body p =>
          if p < 4 then
            match releaseSem s.sems t.owner with
            | some sems' =>
              if 3 ≤ p then
                -- all locals bound: cleanup succeeds, entry popped (line 435)
                some { s with renOps := aremove s.renOps t.fid,
                              sems := sems',
                              tasks := setL s.tasks i { t with pc := .done } }
              else
                -- finally raises UnboundLocalError: no cleanup, no pop
                some { s with sems := sems',
                              tasks := setL s.tasks i
                                { t with pc := .done, finRaised := true } }
            | none => none
          else none
        | _ => none
      | none => none
  | .finish i =>
      -- normal completion: finally cleans up and pops the dedup entry
      match nthL s.tasks i with
      | some t =>
        if t.pc = .body 4 then
          match releaseSem s.sems t.owner with
          | some sems' =>
            some { s with renOps := aremove s.renOps t.fid,
                          sems := sems',
                          tasks := setL s.tasks i { t with pc := .done } }
          | none => none
        else none
      | none => none
  | .exitDup i =>
      -- the early `return` on line 343: before the try block, so no pop
      match nthL s.tasks i with
      | some t =>
        if t.pc = .dupExit then
          match releaseSem s.sems t.owner with
          | some sems' =>
            some { s with sems := sems',
                          tasks := setL s.tasks i { t with pc := .done } }
          | none => none
        else none
      | none => none
  | .tick => some { s with now := s.now + 1 }

def run (s : St) : List Act → Option St
  | [] => some s
  | a :: rest =>
    match applyAct s a with
    | some s' => run s' rest
    | none => none

def initSt : St := ⟨0, [], [], []⟩

def isHolding : PC → Bool
  | .start => false
  | .done => false
  | _ => true

/-- Number of the owner's permits currently held by in-flight tasks. -/
def countHolding (s : St) (o : Nat) : Nat :=
  countB (fun t => t.owner == o && isHolding t.pc) s.tasks

/-- The semaphore-accounting invariant: for every owner with a created
semaphore, available permits plus held permits equal the capacity 4, and every
task's owner has a created semaphore. -/
def SemInv (s : St) : Prop :=
  (∀ o a, alookup s.sems o = some a → a + countHolding s o = 4) ∧
  ∀ t ∈ s.tasks, (alookup s.sems t.owner).isSome = true

/-! ### Concrete traces and states used by the claim theorems -/

def c2TtlActs : List Act :=
  [.arrive 5 9, .acquire 0, .dedup 0, .step 0, .step 0, .step 0, .step 0,
   .finish 0, .tick, .tick, .tick, .arrive 5 9, .acquire 1, .dedup 1]
def c2sA : St := ⟨3, [(9, 0)], [(5, 3)], [⟨5, 9, .atDedup, false, false⟩]⟩
def c2sB : St := ⟨7, [(9, 0)], [(5, 3)], [⟨5, 9, .body 4, false, false⟩]⟩
def c2sB' : St := ⟨7, [], [(5, 4)], [⟨5, 9, .done, false, false⟩]⟩
def c6Acts : List Act :=
  [.arrive 5 1, .arrive 5 2, .arrive 5 3, .arrive 5 4, .arrive 5 6,
   .acquire 0, .acquire 1, .acquire 2, .acquire 3]
def c6Final : St := ⟨0, [], [(5, 0)],
  [⟨5, 1, .atDedup, false, false⟩, ⟨5, 2, .atDedup, false, false⟩,
   ⟨5, 3, .atDedup, false, false⟩, ⟨5, 4, .atDedup, false, false⟩,
   ⟨5, 6, .start, false, false⟩]⟩
def c7Acts : List Act :=
  [.arrive 5 9, .acquire 0, .dedup 0, .arrive 5 9, .acquire 1, .dedup 1]
def c7Final : St := ⟨0, [(9, 0)], [(5, 2)],
  [⟨5, 9, .body 0, false, false⟩, ⟨5, 9, .dupExit, true, false⟩]⟩
def c9Acts : List Act :=
  [.arrive 5 9, .acquire 0, .dedup 0, .step 0, .raiseAt 0]

/-! ### Bookkeeping lemmas for the transition system -/

lemma nthL_mem {α : Type} :
    ∀ (l : List α) (i : Nat) (a : α), nthL l i = some a → a ∈ l := by
  intro l
  induction l with
  | nil => intro i a h; simp [nthL] at h
  | cons b r ih =>
    intro i a h
    cases i with
    | zero => simp [nthL] at h; simp [h]
    | succ j => exact List.mem_cons_of_mem _ (ih j a h)

lemma mem_setL {α : Type} :
    ∀ (l : List α) (i : Nat) (b a : α), a ∈ setL l i b → a = b ∨ a ∈ l := by
  intro l
  induction l with
  | nil => intro i b a h; simp [setL] at h
  | cons c r ih =>
    intro i b a h
    cases i with
    | zero =>
      simp [setL] at h
      rcases h with h | h
      · exact Or.inl h
      · exact Or.inr (List.mem_cons_of_mem _ h)
    | succ j =>
      simp [setL] at h
      rcases h with h | h
      · exact Or.inr (by simp [h])
      · rcases ih j b a h with h' | h'
        · exact Or.inl h'
        · exact Or.inr (List.mem_cons_of_mem _ h')

lemma countB_setL {α : Type} (p : α → Bool) :
    ∀ (l : List α) (i : Nat) (t t' : α), nthL l i = some t →
      countB p (setL l i t') + (if p t then 1 else 0)
        = countB p l + (if p t' then 1 else 0) := by
  intro l
  induction l with
  | nil => intro i t t' h; simp [nthL] at h
  | cons a r ih =>
    intro i t t' h
    cases i with
    | zero =>
      simp [nthL] at h
      subst h
      simp [setL, countB]
      omega
    | succ j =>
      simp [nthL] at h
      have := ih j t t' h
      simp [setL, countB]
      omega

lemma countB_append {α : Type} (p : α → Bool) :
    ∀ (l : List α) (a : α),
      countB p (l ++ [a]) = countB p l + (if p a then 1 else 0) := by
  intro l a
  induction l with
  | nil => simp [countB]
  | cons b r ih => simp [countB, ih]; omega

lemma countB_eq_zero {α : Type} (p : α → Bool) (l : List α)
    (h : ∀ a ∈ l, p a = false) : countB p l = 0 := by
  induction l with
  | nil => rfl
  | cons b r ih =>
    have hb := h b (List.mem_cons_self _ _)
    simp [countB, hb]
    exact ih (fun a ha => h a (List.mem_cons_of_mem _ ha))

lemma countB_pos_of_mem {α : Type} (p : α → Bool) :
    ∀ (l : List α) (a : α), a ∈ l → p a = true → 0 < countB p l := by
  intro l
  induction l with
  | nil => intro a h; simp at h
  | cons b r ih =>
    intro a h hp
    rcases List.mem_cons.mp h with h' | h'
    · subst h'; simp [countB, hp]
    · have := ih a h' hp
      simp [countB]
      omega

lemma alookup_aset_self : ∀ (m : List (Nat × Nat)) (k v : Nat),
    alookup (aset m k v) k = some v := by
  intro m
  induction m with
  | nil => intro k v; simp [aset, alookup]
  | cons kv r ih =>
    intro k v
    by_cases h : kv.1 = k
    · simp [aset, h, alookup]
    · simp [aset, h, alookup, ih]

lemma alookup_aset_ne : ∀ (m : List (Nat × Nat)) (k v o : Nat), o ≠ k →
    alookup (aset m k v) o = alookup m o := by
  intro m
  induction m with
  | nil =>
    intro k v o h
    simp [aset, alookup]
    intro hk
    exact absurd hk.symm h
  | cons kv r ih =>
    intro k v o h
    by_cases hk : kv.1 = k
    · have hko : ¬ k = o := fun he => h he.symm
      have hko2 : ¬ kv.1 = o := by rw [hk]; exact hko
      simp [aset, hk, alookup, hko, hko2]
    · simp only [aset, hk, if_false, alookup]
      by_cases ho : kv.1 = o
      · simp [ho]
      · simp [ho, ih k v o h]

lemma isSome_aset_of_isSome (m : List (Nat × Nat)) (k v o : Nat)
    (h : (alookup m o).isSome = true) : (alookup (aset m k v) o).isSome = true := by
  by_cases ho : o = k
  · subst ho; rw [alookup_aset_self]; rfl
  · rw [alookup_aset_ne m k v o ho]; exact h

lemma isSome_aset_self (m : List (Nat × Nat)) (k v : Nat) :
    (alookup (aset m k v) k).isSome = true := by
  rw [alookup_aset_self]; rfl

lemma inv_init : SemInv initSt := by
  constructor
  · intro o a h; simp [initSt, alookup] at h
  · intro t ht; simp [initSt] at ht

@[simp] lemma isHolding_start : isHolding .start = false := rfl

@[simp] lemma isHolding_atDedup : isHolding .atDedup = true := rfl

@[simp] lemma isHolding_dupExit : isHolding .dupExit = true := rfl

@[simp] lemma isHolding_body (p : Nat) : isHolding (.body p) = true := rfl

@[simp] lemma isHolding_done : isHolding .done = false := rfl

lemma inv_acquire (s s' : St) (i : Nat) (hs : SemInv s)
    (h : applyAct s (.acquire i) = some s') : SemInv s' := by
  simp only [applyAct] at h
  split at h
  next t hn =>
    split at h
    next hpc =>
      split at h
      next a ha =>
        injection h with h2
        subst h2
        constructor
        · intro o b hb
          simp only [countHolding]
          dsimp only at hb ⊢
          by_cases ho : o = t.owner
          · subst ho
            rw [alookup_aset_self] at hb
            injection hb with hb2
            subst hb2
            have h4 := hs.1 t.owner (a + 1) ha
            have hc := countB_setL (fun x => x.owner == t.owner && isHolding x.pc)
              s.tasks i t { t with pc := .atDedup } hn
            simp [hpc] at hc
            simp only [countHolding] at h4
            omega
          · rw [alookup_aset_ne _ _ _ _ ho] at hb
            have h4 := hs.1 o b hb
            have hc := countB_setL (fun x => x.owner == o && isHolding x.pc)
              s.tasks i t { t with pc := .atDedup } hn
            have hno : (t.owner == o) = false := by
              simp
              exact fun he => ho he.symm
            simp [hpc, hno] at hc
            simp only [countHolding] at h4
            omega
        · intro u hu
          dsimp only at hu ⊢
          rcases mem_setL _ _ _ _ hu with hu2 | hu2
          · subst hu2
            exact isSome_aset_self _ _ _
          · exact isSome_aset_of_isSome _ _ _ _ (hs.2 u hu2)
      next x ha => simp at h
    next hpc => simp at h
  next hn => simp at h

lemma inv_arrive (s s' : St) (o f : Nat) (hs : SemInv s)
    (h : applyAct s (.arrive o f) = some s') : SemInv s' := by
  simp only [applyAct] at h
  split at h
  next w ha =>
    injection h with h2
    subst h2
    constructor
    · intro o' b hb
      simp only [countHolding]
      dsimp only at hb ⊢
      have h4 := hs.1 o' b hb
      have hc := countB_append (fun x => x.owner == o' && isHolding x.pc)
        s.tasks ⟨o, f, .start, false, false⟩
      simp only [countHolding] at h4
      simp at hc
      omega
    · intro u hu
      dsimp only at hu ⊢
      rcases List.mem_append.mp hu with hu2 | hu2
      · exact hs.2 u hu2
      · simp at hu2
        subst hu2
        simp [ha]
  next ha =>
    injection h with h2
    subst h2
    constructor
    · intro o' b hb
      simp only [countHolding]
      dsimp only at hb ⊢
      have hc := countB_append (fun x => x.owner == o' && isHolding x.pc)
        s.tasks ⟨o, f, .start, false, false⟩
      simp at hc
      by_cases ho : o' = o
      · subst ho
        rw [alookup_aset_self] at hb
        injection hb with hb2
        subst hb2
        have hz : countB (fun x => x.owner == o' && isHolding x.pc) s.tasks = 0 := by
          apply countB_eq_zero
          intro u hu
          by_cases huo : u.owner = o'
          · exact absurd (hs.2 u hu) (by rw [huo, ha]; simp)
          · simp [huo]
        omega
      · rw [alookup_aset_ne _ _ _ _ ho] at hb
        have h4 := hs.1 o' b hb
        simp only [countHolding] at h4
        omega
    · intro u hu
      dsimp only at hu ⊢
      rcases List.mem_append.mp hu with hu2 | hu2
      · exact isSome_aset_of_isSome _ _ _ _ (hs.2 u hu2)
      · simp at hu2
        subst hu2
        exact isSome_aset_self _ _ _

lemma inv_dedup (s s' : St) (i : Nat) (hs : SemInv s)
    (h : applyAct s (.dedup i) = some s') : SemInv s' := by
  simp only [applyAct] at h
  split at h
  next t hn =>
    split at h
    next hpc =>
      have hkeep : ∀ (t' : PTask), t'.owner = t.owner → isHolding t'.pc = true →
          SemInv { s with renOps := s'.renOps,
                          tasks := setL s.tasks i t' } := by
        intro t' how hhold
        constructor
        · intro o b hb
          simp only [countHolding]
          dsimp only at hb ⊢
          have h4 := hs.1 o b hb
          have hc := countB_setL (fun x => x.owner == o && isHolding x.pc)
            s.tasks i t t' hn
          simp only [countHolding] at h4
          simp [how, hhold, hpc] at hc
          omega
        · intro u hu
          dsimp only at hu ⊢
          rcases mem_setL _ _ _ _ hu with hu2 | hu2
          · subst hu2
            rw [how]
            exact hs.2 t (nthL_mem _ _ _ hn)
          · exact hs.2 u hu2
      split at h
      next t0 ht0 =>
        split at h
        next hfresh =>
          injection h with h2
          subst h2
          exact hkeep { t with pc := .dupExit, rejected := true } rfl rfl
        next hfresh =>
          injection h with h2
          subst h2
          exact hkeep { t with pc := .body 0 } rfl rfl
      next ht0 =>
        injection h with h2
        subst h2
        exact hkeep { t with pc := .body 0 } rfl rfl
    next hpc => simp at h
  next hn => simp at h

lemma inv_stepAct (s s' : St) (i : Nat) (hs : SemInv s)
    (h : applyAct s (.step i) = some s') : SemInv s' := by
  simp only [applyAct] at h
  split at h
  next t hn =>
    split at h
    next p hpc =>
      split at h
      next hlt =>
        injection h with h2
        subst h2
        constructor
        · intro o b hb
          simp only [countHolding]
          dsimp only at hb ⊢
          have h4 := hs.1 o b hb
          have hc := countB_setL (fun x => x.owner == o && isHolding x.pc)
            s.tasks i t { t with pc := .body (p + 1) } hn
          simp only [countHolding] at h4
          simp [hpc] at hc
          omega
        · intro u hu
          dsimp only at hu ⊢
          rcases mem_setL _ _ _ _ hu with hu2 | hu2
          · subst hu2
            exact hs.2 t (nthL_mem _ _ _ hn)
          · exact hs.2 u hu2
      next hlt => simp at h
    next hpc => simp at h
  next hn => simp at h

lemma inv_release (s : St) (i : Nat) (t t' : PTask) (ren : List (Nat × Nat)) (a : Nat)
    (hs : SemInv s) (hn : nthL s.tasks i = some t)
    (ha : alookup s.sems t.owner = some a)
    (hold : isHolding t.pc = true) (how : t'.owner = t.owner)
    (hhold : isHolding t'.pc = false) :
    SemInv { now := s.now, renOps := ren, sems := aset s.sems t.owner (a + 1),
             tasks := setL s.tasks i t' } := by
  constructor
  · intro o b hb
    simp only [countHolding]
    dsimp only at hb ⊢
    have hc := countB_setL (fun x => x.owner == o && isHolding x.pc) s.tasks i t t' hn
    by_cases ho : o = t.owner
    · subst ho
      rw [alookup_aset_self] at hb
      injection hb with hb2
      subst hb2
      have h4 := hs.1 t.owner a ha
      simp [how, hhold, hold] at hc
      simp only [countHolding] at h4
      omega
    · rw [alookup_aset_ne _ _ _ _ ho] at hb
      have h4 := hs.1 o b hb
      have hno : (t.owner == o) = false := by
        simp
        exact fun he => ho he.symm
      simp [how, hhold, hold, hno] at hc
      simp only [countHolding] at h4
      omega
  · intro u hu
    dsimp only at hu ⊢
    rcases mem_setL _ _ _ _ hu with hu2 | hu2
    · subst hu2
      rw [how]
      exact isSome_aset_self _ _ _
    · exact isSome_aset_of_isSome _ _ _ _ (hs.2 u hu2)

lemma inv_raiseAt (s s' : St) (i : Nat) (hs : SemInv s)
    (h : applyAct s (.raiseAt i) = some s') : SemInv s' := by
  simp only [applyAct] at h
  split at h
  next t hn =>
    split at h
    next p hpc =>
      split at h
      next hlt =>
        split at h
        next sems' hsem =>
          simp only [releaseSem] at hsem
          split at hsem
          next a ha =>
            injection hsem with hsem2
            subst hsem2
            split at h
            next h3 =>
              injection h with h2
              subst h2
              exact inv_release s i t { t with pc := .done } _ a hs hn ha
                (by rw [hpc]; simp) rfl rfl
            next h3 =>
              injection h with h2
              subst h2
              exact inv_release s i t { t with pc := .done, finRaised := true } _ a
                hs hn ha (by rw [hpc]; simp) rfl rfl
          next ha => simp at hsem
        next hsem => simp at h
      next hlt => simp at h
    next hpc => simp at h
  next hn => simp at h

lemma inv_finish (s s' : St) (i : Nat) (hs : SemInv s)
    (h : applyAct s (.finish i) = some s') : SemInv s' := by
  simp only [applyAct] at h
  split at h
  next t hn =>
    split at h
    next hpc =>
      split at h
      next sems' hsem =>
        simp only [releaseSem] at hsem
        split at hsem
        next a ha =>
          injection hsem with hsem2
          subst hsem2
          injection h with h2
          subst h2
          exact inv_release s i t { t with pc := .done } _ a hs hn ha
            (by rw [hpc]; simp) rfl rfl
        next ha => simp at hsem
      next hsem => simp at h
    next hpc => simp at h
  next hn => simp at h

lemma inv_exitDup (s s' : St) (i : Nat) (hs : SemInv s)
    (h : applyAct s (.exitDup i) = some s') : SemInv s' := by
  simp only [applyAct] at h
  split at h
  next t hn =>
    split at h
    next hpc =>
      split at h
      next sems' hsem =>
        simp only [releaseSem] at hsem
        split at hsem
        next a ha =>
          injection hsem with hsem2
          subst hsem2
          injection h with h2
          subst h2
          exact inv_release s i t { t with pc := .done } _ a hs hn ha
            (by rw [hpc]; simp) rfl rfl
        next ha => simp at hsem
      next hsem => simp at h
    next hpc => simp at h
  next hn => simp at h

lemma inv_tick (s s' : St) (hs : SemInv s)
    (h : applyAct s .tick = some s') : SemInv s' := by
  simp only [applyAct] at h
  injection h with h2
  subst h2
  constructor
  · intro o b hb
    simp only [countHolding]
    dsimp only at hb ⊢
    have h4 := hs.1 o b hb
    simp only [countHolding] at h4
    exact h4
  · intro u hu
    dsimp only at hu ⊢
    exact hs.2 u hu

lemma inv_applyAct (s s' : St) (a : Act) (hs : SemInv s)
    (h : applyAct s a = some s') : SemInv s' := by
  cases a with
  | arrive o f => exact inv_arrive s s' o f hs h
  | acquire i => exact inv_acquire s s' i hs h
  | dedup i => exact inv_dedup s s' i hs h
  | step i => exact inv_stepAct s s' i hs h
  | raiseAt i => exact inv_raiseAt s s' i hs h
  | finish i => exact inv_finish s s' i hs h
  | exitDup i => exact inv_exitDup s s' i hs h
  | tick => exact inv_tick s s' hs h

lemma inv_run : ∀ (acts : List Act) (s s' : St), SemInv s →
    run s acts = some s' → SemInv s' := by
  intro acts
  induction acts with
  | nil =>
    intro s s' hs h
    simp only [run] at h
    injection h with h2
    subst h2
    exact hs
  | cons a rest ih =>
    intro s s' hs h
    simp only [run] at h
    split at h
    next s1 hstep => exact ih s1 s' (inv_applyAct s s1 a hs hstep) h
    next hstep => simp at h

/-- Every state reachable from the initial state satisfies the accounting
invariant. -/
lemma inv_reachable (acts : List Act) (s : St)
    (h : run initSt acts = some s) : SemInv s :=
  inv_run acts initSt s inv_init h

lemma alookup_aremove_self : ∀ (m : List (Nat × Nat)) (k : Nat),
    alookup (aremove m k) k = none := by
  intro m
  induction m with
  | nil => intro k; simp [aremove, alookup]
  | cons kv r ih =>
    intro k
    by_cases hk : kv.1 = k
    · simp [aremove, hk, ih]
    · simp [aremove, hk, alookup, ih]

/-- If no semaphore exists for an owner, no task of that owner exists. -/
lemma countHolding_le_four (s : St) (hs : SemInv s) (o : Nat) :
    countHolding s o ≤ 4 := by
  rcases ha : alookup s.sems o with _ | a
  · have hz : countHolding s o = 0 := by
      apply countB_eq_zero
      intro t ht
      by_cases ho : t.owner = o
      · have := hs.2 t ht
        rw [ho, ha] at this
        simp at this
      · simp [ho]
    omega
  · have := hs.1 o a ha
    omega

/-! ### Shape lemmas for the extractor -/

lemma zfill2_len (s : String) : 2 ≤ (zfill2 s).length := by
  unfold zfill2
  split
  next h => exact h
  next h =>
    split
    next hd =>
      decide
    next c hd =>
      split
      next => simp [String.length]
      next => simp [String.length]
    next hd h1 h2 =>
      have : s.length = s.data.length := rfl
      rcases hds : s.data with _ | ⟨c1, _ | ⟨c2, r⟩⟩
      · exact absurd hds (h1)
      · exact absurd hds (h2 c1)
      · rw [this, hds]
        simp

lemma pickSeason_len (fn : List Char) (cp : Caps) (gi : Option Nat) (sn : String)
    (h : pickSeason fn cp gi = some sn) : 2 ≤ sn.length := by
  unfold pickSeason at h
  split at h
  next =>
    injection h with h2
    subst h2
    decide
  next g =>
    split at h
    next => simp at h
    next li =>
      split at h
      next =>
        split at h
        next cap hcap =>
          injection h with h2
          subst h2
          split
          next => exact zfill2_len cap
          next => decide
        next => simp at h
      next => simp at h

lemma pickEpisode_len (fn : List Char) (cp : Caps) (gi : Option Nat) (ep : String)
    (h : pickEpisode fn cp gi = some (some ep)) : 2 ≤ ep.length := by
  unfold pickEpisode at h
  split at h
  next =>
    injection h with h2
    simp at h2
  next g =>
    split at h
    next => simp at h
    next li =>
      split at h
      next =>
        split at h
        next cap hcap =>
          injection h with h2
          split at h2
          next =>
            injection h2 with h3
            subst h3
            exact zfill2_len cap
          next => simp at h2
        next => simp at h
      next => simp at h

lemma tryPat_len (fn : List Char) (p : SEPat) (sn ep : String)
    (h : tryPat fn p = some (sn, ep)) : 2 ≤ sn.length ∧ 2 ≤ ep.length := by
  unfold tryPat at h
  split at h
  next => simp at h
  next m =>
    split at h
    next => simp at h
    next sn' hsn =>
      split at h
      next => simp at h
      next epOpt hep =>
        split at h
        next ep' =>
          split at h
          next =>
            injection h with h2
            injection h2 with h3 h4
            subst h3
            subst h4
            constructor
            · exact pickSeason_len _ _ _ _ hsn
            · exact pickEpisode_len _ _ _ _ hep
          next => simp at h
        next => simp at h

lemma seLoop_len (fn : List Char) :
    ∀ ps : List SEPat, 2 ≤ (seLoop fn ps).1.length ∧
      ∀ e, (seLoop fn ps).2 = some e → 2 ≤ e.length := by
  intro ps
  induction ps with
  | nil =>
    constructor
    · show 2 ≤ ("01" : String).length
      decide
    · intro e he
      simp [seLoop] at he
  | cons p rest ih =>
    rcases hp : tryPat fn p with _ | ⟨sn, ep⟩
    · have hr : seLoop fn (p :: rest) = seLoop fn rest := by
        simp only [seLoop, hp]
      rw [hr]
      exact ih
    · have hr : seLoop fn (p :: rest) = (sn, some ep) := by
        simp only [seLoop, hp]
      rw [hr]
      constructor
      · exact (tryPat_len fn p sn ep hp).1
      · intro e he
        simp only at he
        injection he with h2
        subst h2
        exact (tryPat_len fn p sn ep hp).2

lemma seLoop_none (fn : List Char) :
    ∀ ps : List SEPat, (seLoop fn ps).2 = none → seLoop fn ps = ("01", none) := by
  intro ps
  induction ps with
  | nil => intro _; rfl
  | cons p rest ih =>
    intro h
    rcases hp : tryPat fn p with _ | ⟨sn, ep⟩
    · have hr : seLoop fn (p :: rest) = seLoop fn rest := by
        simp only [seLoop, hp]
      rw [hr] at h ⊢
      exact ih h
    · have hr : seLoop fn (p :: rest) = (sn, some ep) := by
        simp only [seLoop, hp]
      rw [hr] at h
      simp at h

/-! ### Claim C1 -/

/-- Claim C1 (counterexample): the catalog has no decimal-chapter pattern, so
`extract_season_episode "[ Ch 31.5 ] Title.pdf"` does not return season "01"
and episode "31.5" as the claim states. -/
theorem c1_counterexample :
    extract_season_episode "[ Ch 31.5 ] Title.pdf" ≠ ("01", some "31.5") := by
  decide

/-- Claim C1 (amended): on "[ Ch 31.5 ] Title.pdf" the first matching pattern
is the dot-separated season.episode pattern, which reads "31.5" as
season 31 / episode 5 and zero-pads both, giving ("31", "05"). -/
theorem c1_amended :
    extract_season_episode "[ Ch 31.5 ] Title.pdf" = ("31", some "05") := by
  decide

/-! ### Claim C3 -/

/-- Claim C3 (counterexample): "24fps" is a resolution/frame-rate token
(digits followed by "fps"), yet the group-tag episode pattern
`\[[A-Za-z0-9\-]+\][\s\-_.]+E(\d{1,3})(?![\dp])` accepts "24" as the episode
because its lookahead excludes only digits and "p", not "f". -/
theorem c3_counterexample :
    extract_season_episode "[Grp] E24fps.mkv" = ("01", some "24") := by
  decide

/-- Claim C3 (amended): for the resolution form digits-followed-by-"p" the
claim's concrete instance holds: "Show.1080p.mkv" yields no episode and
quality "1080p"; only the "fps" half of the claim fails. -/
theorem c3_amended :
    extract_season_episode "Show.1080p.mkv" = ("01", none) ∧
    extract_quality "Show.1080p.mkv" = "1080p" := by
  decide

/-! ### Claim C4 -/

/-- Claim C4 (counterexample): an episode captured as "4" is returned as
"04" — the code zero-pads the episode with `.zfill(2)` as well, so episode
values are not preserved verbatim. -/
theorem c4_counterexample :
    extract_season_episode "Episode 4.mkv" = ("01", some "04") := by
  decide

/-- Claim C4 (amended): both the season and the episode returned by
`extract_season_episode` are zero-padded to at least two characters (season
via `.zfill(2)` or the default "01"; episode via `.zfill(2)`). -/
theorem c4_amended (fn : String) :
    2 ≤ (extract_season_episode fn).1.length ∧
      ∀ e, (extract_season_episode fn).2 = some e → 2 ≤ e.length := by
  unfold extract_season_episode
  exact seLoop_len _ _

/-- Claim C4 (witness): the amendment applied at "Episode 4.mkv". -/
theorem c4_amended_witness :
    2 ≤ (extract_season_episode "Episode 4.mkv").1.length ∧
      2 ≤ ("04" : String).length :=
  ⟨(c4_amended "Episode 4.mkv").1,
   (c4_amended "Episode 4.mkv").2 "04" (by decide)⟩

/-! ### Claim C5 -/

/-- Claim C5 (counterexample): on a filename with no matching pattern the
function still reports season "01" (the default on line 164), not absence for
both components. -/
theorem c5_counterexample :
    (extract_season_episode "Title.mkv").2 = none ∧
      (extract_season_episode "Title.mkv").1 = "01" := by
  decide

/-- Claim C5 (amended): when no pattern yields an episode the result is
exactly `("01", None)`: the episode is absent but the season defaults to
"01"; absence of the episode is never coerced to a number. -/
theorem c5_amended (fn : String)
    (h : (extract_season_episode fn).2 = none) :
    extract_season_episode fn = ("01", none) := by
  unfold extract_season_episode at h ⊢
  exact seLoop_none _ _ h

/-- Claim C5 (witness): the amendment applied at "Random Movie.mkv". -/
theorem c5_amended_witness :
    extract_season_episode "Random Movie.mkv" = ("01", none) :=
  c5_amended "Random Movie.mkv" (by decide)

/-! ### Claim C8 -/

/-- Claim C8 (counterexample): when only "HDRip" matches, the function does
not return "HDRip": matches are lowercased to "hdrip", which ends in "p" and
is therefore returned through the resolution branch. -/
theorem c8_counterexample :
    extract_quality "Movie.HDRip.mkv" ≠ "HDRip" := by
  decide

/-- Claim C8 (amended): matches are collected lowercased and deduplicated
with the matched substring removed; a resolution match is preferred when one
exists; an HDRip-only filename yields "hdrip" (via the resolution branch,
since "hdrip" ends in "p" and the `"HDrip" in quality_parts` fallback never
fires); "Unknown" is returned when nothing matches. -/
theorem c8_amended :
    extract_quality "Movie.HDRip.mkv" = "hdrip" ∧
    extract_quality "Film.2160p.HDRip.mkv" = "2160p" ∧
    extract_quality "Title.mkv" = "Unknown" := by
  decide

/-! ### Claim C2 -/


/-- Claim C2 (counterexample): identity 9 is recorded at time 0; the first
run completes (its `finally` pops the entry); a duplicate arriving at time 3
— well inside the 10-second window from insertion — is admitted to a second
pipeline run (`pc = body 0`, not rejected), refuting "independent of whether
the pipeline run for that file has since completed". -/
theorem c2_counterexample :
    run initSt c2TtlActs =
      some ⟨3, [(9, 3)], [(5, 3)],
        [⟨5, 9, .done, false, false⟩, ⟨5, 9, .body 0, false, false⟩]⟩ ∧
    (3 : Nat) < 10 := by
  decide

/-- Claim C2 (amended): the dedup map rejects a second arrival only while the
identity is still recorded: (a) a dedup check that finds the identity with
`(now - inserted) % 86400 < 10` rejects the task and leaves the map
unchanged; (b) a normal completion pops the identity, so after the first run
finishes the entry is gone even within the 10-second window. -/
theorem c2_amended :
    (∀ (s : St) (i : Nat) (t : PTask) (t0 : Nat),
        nthL s.tasks i = some t → t.pc = .atDedup →
        alookup s.renOps t.fid = some t0 → (s.now - t0) % 86400 < 10 →
        applyAct s (.dedup i) =
          some { s with
                 tasks := setL s.tasks i ({ t with pc := .dupExit,
                                                   rejected := true }) }) ∧
    (∀ (s : St) (i : Nat) (t : PTask) (s' : St),
        nthL s.tasks i = some t → t.pc = .body 4 →
        applyAct s (.finish i) = some s' →
        alookup s'.renOps t.fid = none) := by
  constructor
  · intro s i t t0 hn hpc hren hfresh
    simp [applyAct, hn, hpc, hren, hfresh]
  · intro s i t s' hn hpc hfin
    simp only [applyAct] at hfin
    split at hfin
    next t2 hn2 =>
      rw [hn] at hn2
      injection hn2 with h2
      subst h2
      rw [if_pos hpc] at hfin
      split at hfin
      next sems' hsem =>
        injection hfin with h2
        subst h2
        exact alookup_aremove_self _ _
      next hsem => simp at hfin
    next hn2 =>
      rw [hn] at hn2
      simp at hn2




/-- Claim C2 (witness): both halves of the amendment at concrete states. -/
theorem c2_amended_witness :
    applyAct c2sA (.dedup 0) =
      some { c2sA with tasks := setL c2sA.tasks 0 ⟨5, 9, .dupExit, true, false⟩ } ∧
    alookup c2sB'.renOps 9 = none :=
  ⟨c2_amended.1 c2sA 0 ⟨5, 9, .atDedup, false, false⟩ 0 rfl rfl rfl (by decide),
   c2_amended.2 c2sB 0 ⟨5, 9, .body 4, false, false⟩ c2sB' rfl rfl (by decide)⟩

/-! ### Claim C6 -/

/-- Claim C6: in every reachable state of the model, each owner's held
permits never exceed the capacity 4 of the lazily created
`asyncio.Semaphore(4)`, and the available-plus-held accounting is exact —
i.e. every permit acquired by a task that reached a terminal state (on any
path: success, exception, or duplicate return) has been released. -/
theorem c6_semaphore_bound (acts : List Act) (s : St)
    (h : run initSt acts = some s) (o : Nat) :
    countHolding s o ≤ 4 ∧
      ∀ a, alookup s.sems o = some a → a + countHolding s o = 4 := by
  have hs := inv_reachable acts s h
  exact ⟨countHolding_le_four s hs o, fun a ha => hs.1 o a ha⟩



/-- Claim C6 (witness): after five arrivals and four acquisitions for owner
5, exactly four permits are held and zero are available. -/
theorem c6_semaphore_bound_witness :
    countHolding c6Final 5 ≤ 4 ∧ 0 + countHolding c6Final 5 = 4 :=
  ⟨(c6_semaphore_bound c6Acts c6Final (by decide) 5).1,
   (c6_semaphore_bound c6Acts c6Final (by decide) 5).2 0 (by decide)⟩

/-! ### Claim C7 -/



/-- Claim C7 (counterexample): in `process_file` the semaphore is entered
before the dedup check, so a duplicate-suppressed task occupies a permit: in
the reached state the second task is rejected (`dupExit`) while the owner's
semaphore shows two permits taken. -/
theorem c7_counterexample : run initSt c7Acts = some c7Final := by
  decide

/-- Claim C7 (amended): the dedup check happens inside the admitted region;
whenever a reachable state contains a duplicate-suppressed task that has not
yet returned, that task still holds one of its owner's permits (at least one
permit is held and the available count equals 4 minus the held count). -/
theorem c7_amended (acts : List Act) (s : St) (h : run initSt acts = some s)
    (i : Nat) (t : PTask) (hn : nthL s.tasks i = some t)
    (hpc : t.pc = .dupExit) :
    alookup s.sems t.owner = some (4 - countHolding s t.owner) ∧
      0 < countHolding s t.owner := by
  have hs := inv_reachable acts s h
  have hmem := nthL_mem _ _ _ hn
  have hpos : 0 < countHolding s t.owner := by
    simp only [countHolding]
    exact countB_pos_of_mem _ s.tasks t hmem (by simp [hpc])
  have hsome := hs.2 t hmem
  rcases hx : alookup s.sems t.owner with _ | a
  · rw [hx] at hsome
    simp at hsome
  · have h4 := hs.1 t.owner a hx
    constructor
    · congr 1
      omega
    · exact hpos

/-- Claim C7 (witness): the amendment applied at the state reached by
`c7Acts`, for the duplicate-suppressed task at index 1. -/
theorem c7_amended_witness :
    alookup c7Final.sems 5 = some (4 - countHolding c7Final 5) ∧
      0 < countHolding c7Final 5 :=
  c7_amended c7Acts c7Final (by decide) 1 ⟨5, 9, .dupExit, true, false⟩
    (by decide) rfl

/-! ### Claim C9 -/


/-- Claim C9 (code bug): an exception raised during the download phase —
before `thumb_path` is bound — reaches the `finally` block, which itself
raises `UnboundLocalError` while evaluating
`cleanup_files(download_path, metadata_path, thumb_path)`: the task ends with
`finRaised = true`, no artifact cleanup runs, and the `renaming_operations`
entry `(9, 0)` is never popped. -/
theorem c9_finally_raises :
    run initSt c9Acts =
      some ⟨0, [(9, 0)], [(5, 4)], [⟨5, 9, .done, false, true⟩]⟩ := by
  decide

/-! ### Claim C10 -/

/-- Claim C10: when the original filename has no extension, the computed
target filename takes the fallback extension ".mp4" for videos and ".mp3"
for every other media kind (documents and audio). -/
theorem c10_fallback_ext (tmpl fn : String) (mt : MediaType)
    (h : splitext_ext fn = "") :
    newFilename tmpl fn mt =
      applyReplacements tmpl (extract_season_episode fn).1
        (extract_season_episode fn).2 (extract_quality fn) ++
      (if mt = MediaType.video then ".mp4" else ".mp3") := by
  unfold newFilename pickExt
  rw [h]
  simp [pyOr]

/-- Claim C10 (witness): a document named "file_123" (no extension) is
delivered with a ".mp3" suffix. -/
theorem c10_fallback_ext_witness :
    splitext_ext "file_123" = "" ∧
    newFilename "T" "file_123" MediaType.document =
      applyReplacements "T" (extract_season_episode "file_123").1
        (extract_season_episode "file_123").2 (extract_quality "file_123") ++
      (if MediaType.document = MediaType.video then ".mp4" else ".mp3") :=
  ⟨by decide, c10_fallback_ext "T" "file_123" MediaType.document (by decide)⟩
